import Mathlib

/-!
Verification of `src/scripts/get_noaa_data.py` (class `NOAADataDownloader`).

Shallow embedding conventions:
* Dates are modelled as integer day numbers; `datetime + timedelta(days = n)`
  becomes integer addition (the script only ever adds whole days).
* A JSON page response is modelled by `Resp`: a successful response carries an
  optional `results` list (the `'results' in data` test) and the three optional
  `metadata.resultset` fields `offset`, `count`, `limit` (each `None` when the
  corresponding key chain is absent, mirroring the `.get(..., default)` chain).
* The HTTP layer is a `Server`: a function from (number of requests issued so
  far, request parameters) to a response, so a retried request may answer
  differently on a later attempt.
* The `while has_more` loop is embedded with explicit fuel; `none` means the
  fuel ran out, so non-termination of the Python loop corresponds to the Lean
  function returning `none` for every fuel value.
* Side effects (HTTP GETs and `time.sleep`) are recorded in an event trace;
  sleep durations are in tenths of a second (`time.sleep(0.2)` records `2`,
  `time.sleep(60)` records `600`).
* `process_and_save` is modelled as a function returning the list of file
  system effects it performs (`mkdir(parents=True)` and the CSV write).
-/

namespace NOAA

/-- One record row from the `results` array of a page
(`date`, `station`, `datatype`, `value` columns used by the script);
the numeric value is abstracted to an integer. -/
structure Rec where
  date : String
  station : String
  datatype : String
  value : Int
deriving DecidableEq

/-- The request parameters of one page GET:
`startdate`, `enddate`, `datatypeid`, `limit`, `offset`
(dataset id, location id and unit system are constants in the script). -/
structure Req where
  startdate : Int
  enddate : Int
  datatype : String
  limit : Nat
  offset : Nat
deriving DecidableEq

/-- A page response as seen by the `try` block:
a successful JSON body (optional `results` list and optional
`metadata.resultset` fields), an HTTP 429 error, another HTTP error,
or a non-HTTP exception. -/
inductive Resp where
  | ok (results : Option (List Rec)) (mo mc ml : Option Int)
  | http429
  | httpOther
  | exc
deriving DecidableEq

/-- An observable side effect of the download loop. -/
inductive Event where
  | request (r : Req)
  | sleep (tenths : Nat)
deriving DecidableEq

/-- The endpoint: maps (requests issued so far, request) to the response. -/
def Server : Type := Nat → Req → Resp

/-- One (window, data-type) pair of the nested loop. -/
structure Pair where
  winStart : Int
  winEnd : Int
  datatype : String
deriving DecidableEq

/-- The request issued for a pair at a given offset: the script hardcodes
`limit = 1000` in the query parameters. -/
def mkReq (p : Pair) (off : Nat) : Req :=
  ⟨p.winStart, p.winEnd, p.datatype, 1000, off⟩

/-- The `while current < end` windowing loop (lines 110-117 and 174):
`chunk_end = min(current + 180 days, end)`, emit `(current, chunk_end)`,
then `current = chunk_end + 1 day`. -/
def chunks (current endD : Int) : List (Int × Int) :=
  if current < endD then
    (current, min (current + 180) endD) :: chunks (min (current + 180) endD + 1) endD
  else []
termination_by (endD - current).toNat
decreasing_by
  simp_wf
  omega

/-- The `while has_more` paging loop for one (window, data-type) pair
(lines 119-172), with explicit fuel.  State: requests issued so far `t`,
current `offset`, the shared accumulator `acc` (`all_data`), and the event
trace `tr`.  Returns `none` when fuel runs out (the Python loop is still
running), otherwise the state after the loop exits. -/
def pageLoop (server : Server) (p : Pair) :
    Nat → Nat → Nat → List Rec → List Event → Option (Nat × List Rec × List Event)
  | 0, _, _, _, _ => none
  | fuel + 1, t, off, acc, tr =>
    match server t (mkReq p off) with
    | Resp.ok (some rs) mo mc ml =>
      if mo.getD 0 + ml.getD 1000 ≥ mc.getD 0 then
        some (t + 1, acc ++ rs, tr ++ [Event.request (mkReq p off), Event.sleep 2])
      else
        pageLoop server p fuel (t + 1) (off + 1000) (acc ++ rs)
          (tr ++ [Event.request (mkReq p off), Event.sleep 2])
    | Resp.ok none _ _ _ =>
      some (t + 1, acc, tr ++ [Event.request (mkReq p off), Event.sleep 2])
    | Resp.http429 =>
      pageLoop server p fuel (t + 1) off acc
        (tr ++ [Event.request (mkReq p off), Event.sleep 600])
    | Resp.httpOther =>
      some (t + 1, acc, tr ++ [Event.request (mkReq p off)])
    | Resp.exc =>
      some (t + 1, acc, tr ++ [Event.request (mkReq p off)])

/-- Paging for one pair always starts at `offset = 1` (line 119). -/
def runPair (server : Server) (fuel : Nat) (p : Pair) (t : Nat)
    (acc : List Rec) (tr : List Event) : Option (Nat × List Rec × List Event) :=
  pageLoop server p fuel t 1 acc tr

/-- The iteration over all (window, data-type) pairs, threading the shared
accumulator through each pair's paging loop. -/
def fetchPairs (server : Server) (fuel : Nat) :
    List Pair → Nat → List Rec → List Event → Option (Nat × List Rec × List Event)
  | [], t, acc, tr => some (t, acc, tr)
  | p :: rest, t, acc, tr =>
    match runPair server fuel p t acc tr with
    | none => none
    | some (t', acc', tr') => fetchPairs server fuel rest t' acc' tr'

/-- The (window, data-type) pairs in iteration order: windows ascending by
date (outer loop), each requested data-type in list order (inner loop). -/
def pairsList (s e : Int) (dts : List String) : List Pair :=
  (chunks s e).flatMap (fun w => dts.map (fun dt => ⟨w.1, w.2, dt⟩))

/-- `NOAADataDownloader.get_daily_data`: windows × data-types, paged fetch,
result is the concatenated accumulator (the script returns
`pd.concat(all_data)` when `all_data` is non-empty and an empty `DataFrame`
otherwise; in the list model both are the flat list of accumulated rows). -/
def get_daily_data (server : Server) (fuel : Nat) (s e : Int)
    (dts : List String) : Option (Nat × List Rec × List Event) :=
  fetchPairs server fuel (pairsList s e dts) 0 [] []

/-- Specification-side view of one pair's paging: the list of page payloads
in request order (ascending offset), without the threaded accumulator. -/
def pagePayloads (server : Server) (p : Pair) :
    Nat → Nat → Nat → Option (Nat × List (List Rec))
  | 0, _, _ => none
  | fuel + 1, t, off =>
    match server t (mkReq p off) with
    | Resp.ok (some rs) mo mc ml =>
      if mo.getD 0 + ml.getD 1000 ≥ mc.getD 0 then
        some (t + 1, [rs])
      else
        (pagePayloads server p fuel (t + 1) (off + 1000)).map
          (fun r => (r.1, rs :: r.2))
    | Resp.ok none _ _ _ => some (t + 1, [])
    | Resp.http429 => pagePayloads server p fuel (t + 1) off
    | Resp.httpOther => some (t + 1, [])
    | Resp.exc => some (t + 1, [])

/-- Specification-side view of the whole fetch: for each pair in order, the
list of its page payloads. -/
def pairPayloads (server : Server) (fuel : Nat) :
    List Pair → Nat → Option (Nat × List (List (List Rec)))
  | [], t => some (t, [])
  | p :: rest, t =>
    match pagePayloads server p fuel t 1 with
    | none => none
    | some (t', pls) =>
      (pairPayloads server fuel rest t').map (fun r => (r.1, pls :: r.2))

/-- A row of the pivoted output table built by `process_and_save`
(lines 216-232): one row per `(date, station)` key, one column per
data-type, plus the `county_fips` placeholder column set to `None`. -/
structure PivotRow where
  date : String
  station : String
  cols : List (String × Option Int)
  county_fips : Option String
deriving DecidableEq

/-- Boolean string order used to model the sorted index that
`pandas.pivot_table` produces. -/
def strLe (a b : String) : Bool :=
  decide (a < b) || a == b

/-- Lexicographic order on `(date, station)` keys. -/
def keyLe (a b : String × String) : Bool :=
  decide (a.1 < b.1) || (a.1 == b.1 && strLe a.2 b.2)

/-- Insertion into a sorted list. -/
def insertSorted (le : α → α → Bool) (x : α) : List α → List α
  | [] => [x]
  | y :: ys => if le x y then x :: y :: ys else y :: insertSorted le x ys

/-- Insertion sort (used to model the sorted pivot index and columns). -/
def sortBy (le : α → α → Bool) (xs : List α) : List α :=
  xs.foldr (insertSorted le) []

/-- The distinct `(date, station)` index keys of the pivot, sorted. -/
def pivotKeys (rows : List Rec) : List (String × String) :=
  sortBy keyLe ((rows.map (fun r => (r.date, r.station))).eraseDups)

/-- The distinct data-type column names of the pivot, sorted. -/
def pivotCols (rows : List Rec) : List String :=
  sortBy strLe ((rows.map (fun r => r.datatype)).eraseDups)

/-- `aggfunc='first'`: the first value for a given key and column. -/
def firstVal (rows : List Rec) (d s dt : String) : Option Int :=
  ((rows.filter (fun r => r.date == d && r.station == s && r.datatype == dt)).head?).map
    (fun r => r.value)

/-- The `pivot_table(index=['date','station'], columns='datatype',
values='value', aggfunc='first')` step, with the `county_fips = None`
placeholder column appended. -/
def pivot_table (rows : List Rec) : List PivotRow :=
  (pivotKeys rows).map
    (fun k => ⟨k.1, k.2, (pivotCols rows).map (fun c => (c, firstVal rows k.1 k.2 c)), none⟩)

/-- `Path(output_path).parent` for a `/`-separated path string. -/
def parentDir (path : String) : String :=
  String.intercalate "/" ((path.splitOn "/").dropLast)

/-- A file-system effect performed by `process_and_save`. -/
inductive FsEffect where
  | mkdirParents (dir : String)
  | writeCsv (path : String) (rows : List PivotRow)
deriving DecidableEq

/-- `NOAADataDownloader.process_and_save` (lines 184-244) as the list of file
system effects it performs: on an empty frame it logs and returns with no
effects; otherwise it pivots the data, creates the parent directory and
writes the CSV. -/
def process_and_save (df : List Rec) (output_path : String) : List FsEffect :=
  if df = [] then []
  else [FsEffect.mkdirParents (parentDir output_path),
        FsEffect.writeCsv output_path (pivot_table df)]

/-- A file system: a set of directories and a mapping from paths to written
table contents. -/
structure Fs where
  dirs : List String
  files : List (String × List PivotRow)
deriving DecidableEq

/-- Applying one effect to a file system. -/
def applyEffect (fs : Fs) : FsEffect → Fs
  | FsEffect.mkdirParents d =>
    { fs with dirs := if fs.dirs.contains d then fs.dirs else fs.dirs ++ [d] }
  | FsEffect.writeCsv p rows =>
    { fs with files := (fs.files.filter (fun f => f.1 != p)) ++ [(p, rows)] }

/-- Applying a list of effects in order. -/
def runFs (fs : Fs) (effs : List FsEffect) : Fs :=
  effs.foldl applyEffect fs

/-! ### Concrete objects used by witnesses and counterexamples -/

/-- A sample record. -/
def rec0 : Rec := ⟨"2020-01-01", "GHCND:US1", "TMAX", 5⟩

/-- A sample (window, data-type) pair. -/
def p0 : Pair := ⟨0, 2, "TMAX"⟩

/-- A server whose successful responses carry records but no
`metadata.resultset`. -/
def srvNoMeta : Server := fun _ _ => Resp.ok (some [rec0]) none none none

/-- A server whose successful responses have no `results` key. -/
def srvNoResults : Server := fun _ _ => Resp.ok none none none none

/-- Is an event an HTTP request? -/
def isRequest : Event → Bool
  | Event.request _ => true
  | Event.sleep _ => false

/-- The records of a faithful paged endpoint holding `count` records with
1-based offsets: page `off` returns `min 1000 (count + 1 - off)` records. -/
def simRecords (off count : Nat) : List Rec :=
  List.replicate (min 1000 (count + 1 - off)) rec0

/-- A faithful simulated paged endpoint that never errors: it reports the
fixed total `count` and fixed `limit = 1000`, echoes the request offset, and
omits the `results` key past the end of the data. -/
def simServer (count : Nat) : Server := fun _ r =>
  if r.offset ≤ count then
    Resp.ok (some (simRecords r.offset count)) (some (r.offset : Int))
      (some (count : Int)) (some 1000)
  else
    Resp.ok none (some (r.offset : Int)) (some (count : Int)) (some 1000)

/-! ### Claims about the paging loop -/

/-- Claim C3: for every (window, data-type) pair the paging loop starts at
`offset = 1`, issues the request with the hardcoded `limit = 1000`, reads
`offset`, `count` and `limit` back from the response metadata, stops exactly
when `offset + limit >= count`, and otherwise advances the request offset by
1000 and repeats. -/
theorem c3_paging_protocol (server : Server) (p : Pair) (fuel t off : Nat)
    (acc : List Rec) (tr : List Event) (rs : List Rec) (o c l : Int)
    (h : server t (mkReq p off) = Resp.ok (some rs) (some o) (some c) (some l)) :
    runPair server fuel p t acc tr = pageLoop server p fuel t 1 acc tr ∧
    (mkReq p off).limit = 1000 ∧
    (o + l ≥ c →
      pageLoop server p (fuel + 1) t off acc tr =
        some (t + 1, acc ++ rs, tr ++ [Event.request (mkReq p off), Event.sleep 2])) ∧
    (o + l < c →
      pageLoop server p (fuel + 1) t off acc tr =
        pageLoop server p fuel (t + 1) (off + 1000) (acc ++ rs)
          (tr ++ [Event.request (mkReq p off), Event.sleep 2])) := by
  refine ⟨rfl, rfl, ?_, ?_⟩
  · intro hc
    simp [pageLoop, h, hc]
  · intro hc
    have hcond : ¬ (c ≤ o + l) := by omega
    simp [pageLoop, h, hcond]

/-- Witness for C3 at a concrete server, offset 1, metadata making the loop
stop. -/
theorem c3_paging_protocol_witness :
    (simServer 3) 0 (mkReq p0 1) =
      Resp.ok (some (simRecords 1 3)) (some 1) (some 3) (some 1000) ∧
    (runPair (simServer 3) 6 p0 0 [] [] = pageLoop (simServer 3) p0 6 0 1 [] [] ∧
      (mkReq p0 1).limit = 1000 ∧
      ((1 : Int) + 1000 ≥ 3 →
        pageLoop (simServer 3) p0 7 0 1 [] [] =
          some (1, simRecords 1 3, [Event.request (mkReq p0 1), Event.sleep 2])) ∧
      ((1 : Int) + 1000 < 3 →
        pageLoop (simServer 3) p0 7 0 1 [] [] =
          pageLoop (simServer 3) p0 6 1 1001 (simRecords 1 3)
            [Event.request (mkReq p0 1), Event.sleep 2])) :=
  ⟨rfl, c3_paging_protocol (simServer 3) p0 6 0 1 [] [] (simRecords 1 3) 1 3 1000 rfl⟩

/-- Claim C4: a page request failing with HTTP 429 makes the loop sleep the
fixed 60-second backoff (600 tenths) and re-issue the request for the same
page: the offset is unchanged, the accumulator is unchanged, and paging for
the pair continues. -/
theorem c4_retry_429 (server : Server) (p : Pair) (fuel t off : Nat)
    (acc : List Rec) (tr : List Event)
    (h : server t (mkReq p off) = Resp.http429) :
    pageLoop server p (fuel + 1) t off acc tr =
      pageLoop server p fuel (t + 1) off acc
        (tr ++ [Event.request (mkReq p off), Event.sleep 600]) := by
  simp [pageLoop, h]

/-- A server that answers 429 on its first request and succeeds afterwards. -/
def srv429Once : Server := fun t _ =>
  if t = 0 then Resp.http429 else Resp.ok (some [rec0]) (some 1) (some 1) (some 1000)

/-- Witness for C4: a concrete 429 response is retried at the same offset. -/
theorem c4_retry_429_witness :
    srv429Once 0 (mkReq p0 1) = Resp.http429 ∧
    pageLoop srv429Once p0 4 0 1 [] [] =
      pageLoop srv429Once p0 3 1 1 []
        ([] ++ [Event.request (mkReq p0 1), Event.sleep 600]) :=
  ⟨rfl, c4_retry_429 srv429Once p0 3 0 1 [] [] rfl⟩

/-- Claim C5: a page request failing with a non-429 HTTP error or any other
exception — at any offset, including mid-pagination with pages already
accumulated — stops paging for the current (window, data-type) pair right
there, appends nothing for the failing response, is not raised to the caller
(the loop returns a normal state keeping what was accumulated so far), and
whenever a pair's paging completes normally, as it does here, the driver
still attempts every subsequent pair. -/
theorem c5_error_abandons_pair (server : Server) (p : Pair) (rest : List Pair)
    (fuel t off : Nat) (acc : List Rec) (tr : List Event)
    (herr : server t (mkReq p off) = Resp.httpOther ∨
      server t (mkReq p off) = Resp.exc) :
    pageLoop server p (fuel + 1) t off acc tr =
      some (t + 1, acc, tr ++ [Event.request (mkReq p off)]) ∧
    (∀ (t0 : Nat) (acc0 : List Rec) (tr0 : List Event)
        (t1 : Nat) (acc1 : List Rec) (tr1 : List Event),
      runPair server (fuel + 1) p t0 acc0 tr0 = some (t1, acc1, tr1) →
      fetchPairs server (fuel + 1) (p :: rest) t0 acc0 tr0 =
        fetchPairs server (fuel + 1) rest t1 acc1 tr1) := by
  constructor
  · rcases herr with h | h <;> simp [pageLoop, h]
  · intro t0 acc0 tr0 t1 acc1 tr1 hrun
    simp [fetchPairs, hrun]

/-- A server whose first page succeeds with more data pending and whose every
later page fails with a non-429 HTTP error. -/
def srvFailSecond : Server := fun _ r =>
  if r.offset = 1 then Resp.ok (some [rec0]) (some 1) (some 5000) (some 1000)
  else Resp.httpOther

/-- Witness for C5 at a mid-pagination failure: the first page at offset 1
succeeds and accumulates a record, the request at offset 1001 fails, and the
pair is abandoned keeping the first page, with subsequent pairs still
processed. -/
theorem c5_error_abandons_pair_witness :
    pageLoop srvFailSecond p0 4 0 1 [] [] =
      some (2, [rec0],
        [Event.request (mkReq p0 1), Event.sleep 2, Event.request (mkReq p0 1001)]) ∧
    (srvFailSecond 1 (mkReq p0 1001) = Resp.httpOther ∨
      srvFailSecond 1 (mkReq p0 1001) = Resp.exc) ∧
    (pageLoop srvFailSecond p0 3 1 1001 [rec0] [Event.request (mkReq p0 1), Event.sleep 2] =
      some (2, [rec0],
        [Event.request (mkReq p0 1), Event.sleep 2] ++ [Event.request (mkReq p0 1001)]) ∧
    (∀ (t0 : Nat) (acc0 : List Rec) (tr0 : List Event)
        (t1 : Nat) (acc1 : List Rec) (tr1 : List Event),
      runPair srvFailSecond 3 p0 t0 acc0 tr0 = some (t1, acc1, tr1) →
      fetchPairs srvFailSecond 3 (p0 :: [⟨3, 5, "PRCP"⟩]) t0 acc0 tr0 =
        fetchPairs srvFailSecond 3 [⟨3, 5, "PRCP"⟩] t1 acc1 tr1)) := by
  refine ⟨?_, Or.inl rfl,
    c5_error_abandons_pair srvFailSecond p0 [⟨3, 5, "PRCP"⟩] 2 1 1001 [rec0]
      [Event.request (mkReq p0 1), Event.sleep 2] (Or.inl rfl)⟩
  simp [pageLoop, srvFailSecond, mkReq, p0]

/-- Claim C7: `process_and_save` on an empty frame performs no file-system
effect: no directory is created, no file is written, and any file system is
left unchanged. -/
theorem c7_no_write_when_empty (output_path : String) (fs : Fs) :
    process_and_save [] output_path = [] ∧
    runFs fs (process_and_save [] output_path) = fs := by
  refine ⟨?_, ?_⟩ <;> simp [process_and_save, runFs]

/-- Counterexample to claim C10 as stated: a successful response whose
`results` list is present but whose `metadata.resultset` is missing makes
the loop stop, yet its records ARE appended to the accumulator — the claim
asserts nothing is appended for such a response. -/
theorem c10_counterexample :
    pageLoop srvNoMeta p0 5 0 1 [] [] =
      some (1, [rec0], [Event.request (mkReq p0 1), Event.sleep 2]) ∧
    ([rec0] : List Rec) ≠ [] := by
  refine ⟨?_, by simp⟩
  simp [pageLoop, srvNoMeta]

/-- Claim C10 (amended): a successful response with no `results` key stops
paging for the pair immediately and appends nothing; a successful response
with a `results` list but a missing `metadata.resultset` also stops paging
immediately (count defaults to 0, so `offset + limit >= count` holds), but
its records are appended to the accumulator before the loop stops. -/
theorem c10_amended (server : Server) (p : Pair) (fuel t off : Nat)
    (acc : List Rec) (tr : List Event) :
    (∀ mo mc ml, server t (mkReq p off) = Resp.ok none mo mc ml →
      pageLoop server p (fuel + 1) t off acc tr =
        some (t + 1, acc, tr ++ [Event.request (mkReq p off), Event.sleep 2])) ∧
    (∀ rs, server t (mkReq p off) = Resp.ok (some rs) none none none →
      pageLoop server p (fuel + 1) t off acc tr =
        some (t + 1, acc ++ rs, tr ++ [Event.request (mkReq p off), Event.sleep 2])) := by
  constructor
  · intro mo mc ml h
    simp [pageLoop, h]
  · intro rs h
    simp [pageLoop, h]

/-- Witness for the amended C10 on concrete servers: the no-results response
stops with nothing appended; the missing-resultset response stops with its
record appended. -/
theorem c10_amended_witness :
    (srvNoResults 0 (mkReq p0 1) = Resp.ok none none none none ∧
      pageLoop srvNoResults p0 5 0 1 [] [] =
        some (1, [], [Event.request (mkReq p0 1), Event.sleep 2])) ∧
    (srvNoMeta 0 (mkReq p0 1) = Resp.ok (some [rec0]) none none none ∧
      pageLoop srvNoMeta p0 5 0 1 [] [] =
        some (1, [rec0], [Event.request (mkReq p0 1), Event.sleep 2])) :=
  ⟨⟨rfl, (c10_amended srvNoResults p0 4 0 1 [] []).1 none none none rfl⟩,
   ⟨rfl, (c10_amended srvNoMeta p0 4 0 1 [] []).2 [rec0] rfl⟩⟩

/-- Claim C1 fails on the code (code bug): against the faithful simulated
endpoint with `count = 1001` and `limit = 1000`, `get_daily_data`'s paging
loop issues only 1 page request and accumulates only 1000 records, because
the stop test `offset + limit >= count` fires at `1 + 1000 >= 1001` even
though the record at offset 1001 was never fetched; the claim requires
`ceil(1001 / 1000) = 2` requests and 1001 records. -/
theorem c1_pagination_undercount :
    (pageLoop (simServer 1001) p0 5 0 1 [] []).map
        (fun r => (r.2.1.length, r.2.2.countP isRequest)) = some (1000, 1) ∧
    (1001 + 1000 - 1) / 1000 = 2 ∧ 1000 ≠ 1001 ∧ 1 ≠ 2 := by
  refine ⟨?_, by norm_num, by norm_num, by norm_num⟩
  have hsrv : simServer 1001 0 (mkReq p0 1) =
      Resp.ok (some (simRecords 1 1001)) (some 1) (some 1001) (some 1000) := rfl
  have hlen : (simRecords 1 1001).length = 1000 := by
    unfold simRecords
    rw [List.length_replicate]
    omega
  have hstop : pageLoop (simServer 1001) p0 (4 + 1) 0 1 [] [] =
      some (1, simRecords 1 1001, [Event.request (mkReq p0 1), Event.sleep 2]) := by
    simp [pageLoop, hsrv]
  rw [show (5 : Nat) = 4 + 1 from rfl, hstop]
  simp [hlen, List.countP_cons, List.countP_nil, isRequest]

/-! ### Claim C2: windowing -/

/-- A window list is contiguous starting at `s`: each window starts exactly
where demanded and the next window starts the day after this window ends. -/
def contiguousFrom : Int → List (Int × Int) → Prop
  | _, [] => True
  | s, w :: rest => w.1 = s ∧ contiguousFrom (w.2 + 1) rest

/-- Every generated window lies inside `[s, e]` and spans at most 180 days. -/
lemma chunks_mem_bounds (s e : Int) :
    ∀ w ∈ chunks s e, s ≤ w.1 ∧ w.1 ≤ w.2 ∧ w.2 ≤ e ∧ w.2 - w.1 ≤ 180 := by
  induction s, e using chunks.induct with
  | case1 s e h ih =>
    intro w hw
    rw [chunks, if_pos h] at hw
    rcases List.mem_cons.mp hw with hw | hw
    · subst hw
      refine ⟨le_refl s, ?_, ?_, ?_⟩ <;> simp <;> omega
    · have hb := ih w hw
      omega
  | case2 s e h =>
    intro w hw
    rw [chunks, if_neg h] at hw
    simp at hw

/-- The generated windows are contiguous from the overall start date. -/
lemma chunks_contiguous (s e : Int) : contiguousFrom s (chunks s e) := by
  induction s, e using chunks.induct with
  | case1 s e h ih =>
    rw [chunks, if_pos h]
    exact ⟨rfl, ih⟩
  | case2 s e h =>
    rw [chunks, if_neg h]
    trivial

/-- Every day of the half-open overall range is covered by exactly one
generated window. -/
lemma chunks_cover_once (s e : Int) :
    ∀ d : Int, s ≤ d → d < e →
      (chunks s e).countP (fun w => decide (w.1 ≤ d ∧ d ≤ w.2)) = 1 := by
  induction s, e using chunks.induct with
  | case1 s e h ih =>
    intro d hsd hde
    rw [chunks, if_pos h]
    by_cases hd : d ≤ min (s + 180) e
    · rw [List.countP_cons_of_pos]
      · have h0 : (chunks (min (s + 180) e + 1) e).countP
            (fun w => decide (w.1 ≤ d ∧ d ≤ w.2)) = 0 := by
          rw [List.countP_eq_zero]
          intro w hw
          have hb := chunks_mem_bounds (min (s + 180) e + 1) e w hw
          simp only [decide_eq_true_eq]
          omega
        rw [h0]
      · simp only [decide_eq_true_eq]
        exact ⟨hsd, hd⟩
    · rw [List.countP_cons_of_neg]
      · exact ih d (by omega) hde
      · simp only [decide_eq_true_eq]
        omega
  | case2 s e h =>
    intro d hsd hde
    omega

/-- Claim C2: for any overall range `[s, e)` with `s < e` and window size 180
days, the sub-windows generated by `get_daily_data` are non-empty, start at
`s`, are contiguous (hence non-overlapping), each spans at most 180 days and
stays inside the range, and every day of `[s, e)` lies in exactly one
window. -/
theorem c2_windowing (s e : Int) (h : s < e) :
    chunks s e ≠ [] ∧
    contiguousFrom s (chunks s e) ∧
    (∀ w ∈ chunks s e, s ≤ w.1 ∧ w.1 ≤ w.2 ∧ w.2 ≤ e ∧ w.2 - w.1 ≤ 180) ∧
    (∀ d : Int, s ≤ d → d < e →
      (chunks s e).countP (fun w => decide (w.1 ≤ d ∧ d ≤ w.2)) = 1) := by
  refine ⟨?_, chunks_contiguous s e, chunks_mem_bounds s e, chunks_cover_once s e⟩
  rw [chunks, if_pos h]
  simp

/-- Witness for C2 at the concrete range `[0, 400)`. -/
theorem c2_windowing_witness :
    (0 : Int) < 400 ∧
    (chunks 0 400 ≠ [] ∧
      contiguousFrom 0 (chunks 0 400) ∧
      (∀ w ∈ chunks 0 400, 0 ≤ w.1 ∧ w.1 ≤ w.2 ∧ w.2 ≤ 400 ∧ w.2 - w.1 ≤ 180) ∧
      (∀ d : Int, 0 ≤ d → d < 400 →
        (chunks 0 400).countP (fun w => decide (w.1 ≤ d ∧ d ≤ w.2)) = 1)) :=
  ⟨by norm_num, c2_windowing 0 400 (by norm_num)⟩

/-! ### Claims C6 and C8: result shape -/

/-- The paging loop's final accumulator is the starting accumulator followed
by the pair's page payloads, concatenated in request order. -/
lemma pageLoop_payloads (server : Server) (p : Pair) :
    ∀ fuel t off acc tr t' res tr',
      pageLoop server p fuel t off acc tr = some (t', res, tr') →
      ∃ pls, pagePayloads server p fuel t off = some (t', pls) ∧
        res = acc ++ pls.flatten := by
  intro fuel
  induction fuel with
  | zero =>
    intro t off acc tr t' res tr' h
    simp [pageLoop] at h
  | succ fuel ih =>
    intro t off acc tr t' res tr' h
    cases hs : server t (mkReq p off) with
    | ok results mo mc ml =>
      cases results with
      | some rs =>
        simp only [pageLoop, hs] at h
        by_cases hcond : mo.getD 0 + ml.getD 1000 ≥ mc.getD 0
        · rw [if_pos hcond] at h
          simp only [Option.some.injEq, Prod.mk.injEq] at h
          obtain ⟨h1, h2, h3⟩ := h
          refine ⟨[rs], ?_, ?_⟩
          · simp only [pagePayloads, hs]
            rw [if_pos hcond, h1]
          · simp [← h2]
        · rw [if_neg hcond] at h
          obtain ⟨pls, hpl, hres⟩ := ih _ _ _ _ _ _ _ h
          refine ⟨rs :: pls, ?_, ?_⟩
          · simp only [pagePayloads, hs]
            rw [if_neg hcond, hpl]
            rfl
          · rw [hres]
            simp
      | none =>
        simp only [pageLoop, hs] at h
        simp only [Option.some.injEq, Prod.mk.injEq] at h
        obtain ⟨h1, h2, h3⟩ := h
        refine ⟨[], ?_, by simp [← h2]⟩
        simp only [pagePayloads, hs]
        rw [h1]
    | http429 =>
      simp only [pageLoop, hs] at h
      obtain ⟨pls, hpl, hres⟩ := ih _ _ _ _ _ _ _ h
      exact ⟨pls, by simp only [pagePayloads, hs]; exact hpl, hres⟩
    | httpOther =>
      simp only [pageLoop, hs] at h
      simp only [Option.some.injEq, Prod.mk.injEq] at h
      obtain ⟨h1, h2, h3⟩ := h
      refine ⟨[], ?_, by simp [← h2]⟩
      simp only [pagePayloads, hs]
      rw [h1]
    | exc =>
      simp only [pageLoop, hs] at h
      simp only [Option.some.injEq, Prod.mk.injEq] at h
      obtain ⟨h1, h2, h3⟩ := h
      refine ⟨[], ?_, by simp [← h2]⟩
      simp only [pagePayloads, hs]
      rw [h1]

/-- The driver's final accumulator is the starting accumulator followed by
each pair's page payloads, pairs in iteration order. -/
lemma fetchPairs_payloads (server : Server) (fuel : Nat) :
    ∀ ps t acc tr t' res tr',
      fetchPairs server fuel ps t acc tr = some (t', res, tr') →
      ∃ prs, pairPayloads server fuel ps t = some (t', prs) ∧
        res = acc ++ (prs.map List.flatten).flatten := by
  intro ps
  induction ps with
  | nil =>
    intro t acc tr t' res tr' h
    simp only [fetchPairs, Option.some.injEq] at h
    simp only [Prod.mk.injEq] at h
    obtain ⟨h1, h2, h3⟩ := h
    refine ⟨[], ?_, by simp [← h2]⟩
    simp only [pairPayloads]
    rw [h1]
  | cons p rest ih =>
    intro t acc tr t' res tr' h
    simp only [fetchPairs, runPair] at h
    cases hq : pageLoop server p fuel t 1 acc tr with
    | none => rw [hq] at h; simp at h
    | some st =>
      obtain ⟨t1, acc1, tr1⟩ := st
      rw [hq] at h
      obtain ⟨pls, hpl, hres⟩ := pageLoop_payloads server p fuel t 1 acc tr t1 acc1 tr1 hq
      obtain ⟨prs, hprs, hres2⟩ := ih t1 acc1 tr1 t' res tr' h
      refine ⟨pls :: prs, ?_, ?_⟩
      · simp only [pairPayloads, hpl, hprs]
        rfl
      · rw [hres2, hres]
        simp

/-- Claim C8: whenever `get_daily_data` returns, its result is exactly the
concatenation of the successful page payloads in fetch order — pairs in
iteration order (windows ascending, data-types in list order), pages within
a pair ascending by offset — and its length is the sum of the page payload
lengths, so no deduplication happens across pages. -/
theorem c8_concat_order (server : Server) (fuel : Nat) (s e : Int)
    (dts : List String) (t' : Nat) (res : List Rec) (tr' : List Event)
    (h : get_daily_data server fuel s e dts = some (t', res, tr')) :
    ∃ prs, pairPayloads server fuel (pairsList s e dts) 0 = some (t', prs) ∧
      res = (prs.map List.flatten).flatten ∧
      res.length = (prs.map (fun pls => (pls.map List.length).sum)).sum := by
  obtain ⟨prs, hprs, hres⟩ :=
    fetchPairs_payloads server fuel (pairsList s e dts) 0 [] [] t' res tr' h
  have hres' : res = (prs.map List.flatten).flatten := by simpa using hres
  refine ⟨prs, hprs, hres', ?_⟩
  rw [hres']
  simp [List.length_flatten, List.map_map, Function.comp_def]

/-- Claim C6: whenever `get_daily_data` returns, its result is the
concatenation of all retrieved pages, and it is the empty table (zero rows)
exactly when no page across any window and data-type yielded any record. -/
theorem c6_empty_result (server : Server) (fuel : Nat) (s e : Int)
    (dts : List String) (t' : Nat) (res : List Rec) (tr' : List Event)
    (h : get_daily_data server fuel s e dts = some (t', res, tr')) :
    ∃ prs, pairPayloads server fuel (pairsList s e dts) 0 = some (t', prs) ∧
      res = (prs.map List.flatten).flatten ∧
      (res = [] ↔ ∀ pls ∈ prs, ∀ pg ∈ pls, pg = ([] : List Rec)) := by
  obtain ⟨prs, hprs, hres⟩ :=
    fetchPairs_payloads server fuel (pairsList s e dts) 0 [] [] t' res tr' h
  have hres' : res = (prs.map List.flatten).flatten := by simpa using hres
  refine ⟨prs, hprs, hres', ?_⟩
  rw [hres']
  simp [List.flatten_eq_nil_iff]

/-- The windowing of the concrete range `[0, 2)`: a single two-day window. -/
lemma chunks_zero_two : chunks 0 2 = [(0, 2)] := by
  rw [chunks]
  norm_num
  rw [chunks]
  norm_num

/-- The pair list of the concrete range `[0, 2)` with one data-type. -/
lemma pairsList_zero_two : pairsList 0 2 ["TMAX"] = [p0] := by
  simp [pairsList, chunks_zero_two, p0]

/-- A server answering every page with one record and total count 1. -/
def srvOnePage : Server := fun _ r =>
  Resp.ok (some [rec0]) (some (r.offset : Int)) (some 1) (some 1000)

/-- A server answering every page with an empty `results` list and count 0. -/
def srvEmptyPage : Server := fun _ r =>
  Resp.ok (some []) (some (r.offset : Int)) (some 0) (some 1000)

/-- Witness for C8 on a concrete one-page run. -/
theorem c8_concat_order_witness :
    get_daily_data srvOnePage 3 0 2 ["TMAX"] =
      some (1, [rec0], [Event.request (mkReq p0 1), Event.sleep 2]) ∧
    (∃ prs, pairPayloads srvOnePage 3 (pairsList 0 2 ["TMAX"]) 0 = some (1, prs) ∧
      [rec0] = (prs.map List.flatten).flatten ∧
      [rec0].length = (prs.map (fun pls => (pls.map List.length).sum)).sum) := by
  have hrun : get_daily_data srvOnePage 3 0 2 ["TMAX"] =
      some (1, [rec0], [Event.request (mkReq p0 1), Event.sleep 2]) := by
    rw [get_daily_data, pairsList_zero_two]
    simp [fetchPairs, runPair, pageLoop, srvOnePage, mkReq, p0]
  exact ⟨hrun, c8_concat_order srvOnePage 3 0 2 ["TMAX"] 1 [rec0] _ hrun⟩

/-- Witness for C6 on a concrete run in which every page is empty. -/
theorem c6_empty_result_witness :
    get_daily_data srvEmptyPage 3 0 2 ["TMAX"] =
      some (1, [], [Event.request (mkReq p0 1), Event.sleep 2]) ∧
    (∃ prs, pairPayloads srvEmptyPage 3 (pairsList 0 2 ["TMAX"]) 0 = some (1, prs) ∧
      ([] : List Rec) = (prs.map List.flatten).flatten ∧
      (([] : List Rec) = [] ↔ ∀ pls ∈ prs, ∀ pg ∈ pls, pg = ([] : List Rec))) := by
  have hrun : get_daily_data srvEmptyPage 3 0 2 ["TMAX"] =
      some (1, [], [Event.request (mkReq p0 1), Event.sleep 2]) := by
    rw [get_daily_data, pairsList_zero_two]
    simp [fetchPairs, runPair, pageLoop, srvEmptyPage, mkReq, p0]
  exact ⟨hrun, c6_empty_result srvEmptyPage 3 0 2 ["TMAX"] 1 [] _ hrun⟩

/-! ### Claim C9: termination and the unbounded 429 retry -/

/-- A server class: every response is either a 429 or a faithful success
echoing the request offset and reporting the fixed total `c` and the fixed
limit 1000. -/
def FixedCountServer (server : Server) (c : Int) : Prop :=
  ∀ t r, server t r = Resp.http429 ∨
    ∃ rs, server t r = Resp.ok (some rs) (some (r.offset : Int)) (some c) (some 1000)

/-- A server class: every page request eventually gets a non-429 answer if
retried long enough. -/
def EventuallyAnswers (server : Server) : Prop :=
  ∀ t r, ∃ d, server (t + d) r ≠ Resp.http429

/-- There is a first retry at which a request stops answering 429. -/
lemma exists_min_non429 (server : Server) (r : Req) (t : Nat)
    (hex : ∃ d, server (t + d) r ≠ Resp.http429) :
    ∃ d, server (t + d) r ≠ Resp.http429 ∧
      ∀ j, j < d → server (t + j) r = Resp.http429 :=
  ⟨Nat.find hex, Nat.find_spec hex, fun _ hj => not_not.mp (Nat.find_min hex hj)⟩

/-- Skipping `d` consecutive 429 responses consumes `d` fuel and leaves the
offset and accumulator unchanged. -/
lemma pageLoop_skip429 (server : Server) (p : Pair) :
    ∀ d t off acc tr,
      (∀ j, j < d → server (t + j) (mkReq p off) = Resp.http429) →
      ∃ tr2, ∀ m, pageLoop server p (d + m) t off acc tr =
        pageLoop server p m (t + d) off acc tr2 := by
  intro d
  induction d with
  | zero =>
    intro t off acc tr _
    exact ⟨tr, fun m => by simp⟩
  | succ d ih =>
    intro t off acc tr hj
    have h0 : server t (mkReq p off) = Resp.http429 := by
      simpa using hj 0 (Nat.succ_pos d)
    obtain ⟨tr2, h2⟩ := ih (t + 1) off acc
      (tr ++ [Event.request (mkReq p off), Event.sleep 600])
      (fun j hjd => by
        have hx := hj (j + 1) (by omega)
        have harith : t + (j + 1) = t + 1 + j := by omega
        rwa [harith] at hx)
    refine ⟨tr2, fun m => ?_⟩
    have hfuel : d + 1 + m = (d + m) + 1 := by omega
    have harith : t + 1 + d = t + (d + 1) := by omega
    rw [hfuel]
    calc pageLoop server p ((d + m) + 1) t off acc tr
        = pageLoop server p (d + m) (t + 1) off acc
            (tr ++ [Event.request (mkReq p off), Event.sleep 600]) := by
          simp [pageLoop, h0]
      _ = pageLoop server p m (t + 1 + d) off acc tr2 := h2 m
      _ = pageLoop server p m (t + (d + 1)) off acc tr2 := by rw [harith]

/-- Against an eventually-answering fixed-count server, the paging loop
terminates from any state: some finite fuel suffices. -/
lemma pageLoop_terminates (server : Server) (p : Pair) (c : Int)
    (h1 : FixedCountServer server c) (h2 : EventuallyAnswers server) :
    ∀ (n t off : Nat) (acc : List Rec) (tr : List Event),
      c ≤ (off : Int) + (n : Int) →
      ∃ fuel res, pageLoop server p fuel t off acc tr = some res := by
  intro n
  induction n using Nat.strong_induction_on with
  | _ n ih =>
    intro t off acc tr hn
    obtain ⟨d, hdspec, hdmin⟩ :=
      exists_min_non429 server (mkReq p off) t (h2 t (mkReq p off))
    rcases h1 (t + d) (mkReq p off) with h429 | ⟨rs, hok⟩
    · exact absurd h429 hdspec
    obtain ⟨tr2, hskip⟩ := pageLoop_skip429 server p d t off acc tr hdmin
    have hoffs : ((mkReq p off).offset : Int) = (off : Int) := rfl
    by_cases hstop : c ≤ (off : Int) + 1000
    · have hres : pageLoop server p 1 (t + d) off acc tr2 =
          some (t + d + 1, acc ++ rs,
            tr2 ++ [Event.request (mkReq p off), Event.sleep 2]) := by
        simp [pageLoop, hok, hoffs, hstop]
      exact ⟨d + 1, _, by rw [hskip 1]; exact hres⟩
    · have hstep : ∀ m, pageLoop server p (m + 1) (t + d) off acc tr2 =
          pageLoop server p m (t + d + 1) (off + 1000) (acc ++ rs)
            (tr2 ++ [Event.request (mkReq p off), Event.sleep 2]) := by
        intro m
        simp [pageLoop, hok, hoffs, hstop]
      have hle : c ≤ ((off + 1000 : Nat) : Int) + ((n - 1000 : Nat) : Int) := by
        omega
      obtain ⟨fuel2, res, hres⟩ := ih (n - 1000) (by omega) (t + d + 1) (off + 1000)
        (acc ++ rs) (tr2 ++ [Event.request (mkReq p off), Event.sleep 2]) hle
      exact ⟨d + (fuel2 + 1), res, by rw [hskip (fuel2 + 1), hstep fuel2, hres]⟩

/-- A page whose requests are all answered 429 keeps the loop running: no
amount of fuel makes it return. -/
lemma pageLoop_429_forever (bad : Server) (p : Pair) (off : Nat)
    (hbad : ∀ t, bad t (mkReq p off) = Resp.http429) :
    ∀ fuel t acc tr, pageLoop bad p fuel t off acc tr = none := by
  intro fuel
  induction fuel with
  | zero =>
    intro t acc tr
    simp [pageLoop]
  | succ fuel ih =>
    intro t acc tr
    simp [pageLoop, hbad t, ih]

/-- Claim C9: the 429 retry is unbounded.  Against a server whose every
response is either a 429 or a faithful success with a fixed total count, and
which eventually answers every retried request, every paging loop terminates
with some finite fuel; against a server that answers 429 on every request
for a pair's first page, the paging loop — and with it the whole
`fetchPairs` driver once it reaches that pair — returns for no fuel at all,
i.e. `get_daily_data` never terminates. -/
theorem c9_unbounded_retry (server : Server) (c : Int) (p : Pair) (bad : Server)
    (h1 : FixedCountServer server c) (h2 : EventuallyAnswers server)
    (hbad : ∀ t, bad t (mkReq p 1) = Resp.http429) :
    (∀ t off acc tr, ∃ fuel res, pageLoop server p fuel t off acc tr = some res) ∧
    (∀ fuel t acc tr, pageLoop bad p fuel t 1 acc tr = none) ∧
    (∀ fuel t acc tr rest, fetchPairs bad fuel (p :: rest) t acc tr = none) := by
  have hterm : ∀ t off acc tr,
      ∃ fuel res, pageLoop server p fuel t off acc tr = some res := by
    intro t off acc tr
    exact pageLoop_terminates server p c h1 h2 (c - off).toNat t off acc tr (by omega)
  have hforever := pageLoop_429_forever bad p 1 hbad
  refine ⟨hterm, hforever, ?_⟩
  intro fuel t acc tr rest
  simp [fetchPairs, runPair, hforever]

/-- A server always answering with an empty page and fixed count 10. -/
def srvAlwaysOk : Server := fun _ r =>
  Resp.ok (some []) (some (r.offset : Int)) (some 10) (some 1000)

/-- A server always answering 429. -/
def srvAlways429 : Server := fun _ _ => Resp.http429

/-- Witness for C9 on concrete servers: the always-answering fixed-count
server terminates, the always-429 server never does. -/
theorem c9_unbounded_retry_witness :
    FixedCountServer srvAlwaysOk 10 ∧ EventuallyAnswers srvAlwaysOk ∧
    (∀ t, srvAlways429 t (mkReq p0 1) = Resp.http429) ∧
    ((∀ t off acc tr, ∃ fuel res, pageLoop srvAlwaysOk p0 fuel t off acc tr = some res) ∧
      (∀ fuel t acc tr, pageLoop srvAlways429 p0 fuel t 1 acc tr = none) ∧
      (∀ fuel t acc tr rest, fetchPairs srvAlways429 fuel (p0 :: rest) t acc tr = none)) := by
  have ha : FixedCountServer srvAlwaysOk 10 := fun _ _ => Or.inr ⟨[], rfl⟩
  have hb : EventuallyAnswers srvAlwaysOk := fun _ _ => ⟨0, by simp [srvAlwaysOk]⟩
  have hc : ∀ t, srvAlways429 t (mkReq p0 1) = Resp.http429 := fun _ => rfl
  exact ⟨ha, hb, hc, c9_unbounded_retry srvAlwaysOk 10 p0 srvAlways429 ha hb hc⟩

end NOAA
